import Mathlib

/-!
Verification development for the IoTConnect Relay C client library
(`iotc_relay_client.c` / `iotc_relay_client.h`).

The C source is shallowly embedded: bytes of the stream are modelled as
`Char` values (the protocol is ASCII JSON text; embedded NUL bytes, which a
C string cannot represent, are outside the model), C strings become
`List Char` or `String`, machine integers become `Int`/`Nat`, and the
results of external I/O calls (`socket`, `connect`, `send`, `recv`,
`pthread_create`) are supplied as explicit oracle parameters describing the
environment's response.  Each definition carries a reference to the C
function it translates.
-/

namespace IotcRelay

/-! ### Error codes (`IotcRelayError`, iotc_relay_client.h lines 23-32) -/

def IOTC_RELAY_SUCCESS : Int := 0
def IOTC_RELAY_ERROR_SOCKET : Int := -1
def IOTC_RELAY_ERROR_CONNECT : Int := -2
def IOTC_RELAY_ERROR_SEND : Int := -3
def IOTC_RELAY_ERROR_RECV : Int := -4
def IOTC_RELAY_ERROR_JSON : Int := -5
def IOTC_RELAY_ERROR_DISCONNECTED : Int := -6
def IOTC_RELAY_ERROR_INVALID_PARAM : Int := -7

/-! ### Envelope encoding (`create_json_telemetry` / `create_json_register`,
iotc_relay_client.c lines 476-504).

Both functions allocate `256 + strlen(...)` (resp. `128 + strlen(...)`)
bytes, far more than the fixed part of the format string, so the
`snprintf` can never truncate; the functions are therefore modelled as
plain string concatenation following the format strings
`{"type":"telemetry","client_id":"%s","data":%s}\n` and
`{"type":"register","client_id":"%s"}\n`. -/

def create_json_telemetry (client_id data : String) : String :=
  "\x7b\"type\":\"telemetry\",\"client_id\":\"" ++ client_id ++
    "\",\"data\":" ++ data ++ "\x7d\n"

def create_json_register (client_id : String) : String :=
  "\x7b\"type\":\"register\",\"client_id\":\"" ++ client_id ++ "\"\x7d\n"

/-! ### Transport resolution (`parse_tcp_target`,
iotc_relay_client.c lines 207-232). -/

/-- C `atoi`: skip leading whitespace, optional sign, then read a run of
decimal digits; returns 0 when no digits follow. -/
def atoiDigits : List Char → Int → Int
  | [], acc => acc
  | c :: rest, acc =>
    if c.isDigit then atoiDigits rest (acc * 10 + ((c.toNat : Int) - 48))
    else acc

def atoiSpace (c : Char) : Bool :=
  c = ' ' || c = '\t' || c = '\n' || c = '\x0b' || c = '\x0c' || c = '\r'

def atoi (s : List Char) : Int :=
  let s1 := s.dropWhile atoiSpace
  match s1 with
  | '-' :: rest => - atoiDigits rest 0
  | '+' :: rest => atoiDigits rest 0
  | _ => atoiDigits s1 0

/-- Index of the last occurrence of `c` in `s` (C `strrchr`, as an index
into `s` rather than a pointer). -/
def strrchrIdx (s : List Char) (c : Char) : Option Nat :=
  match s with
  | [] => none
  | a :: rest =>
    match strrchrIdx rest c with
    | some i => some (i + 1)
    | none => if a = c then some 0 else none

def tcpScheme : List Char := ['t', 'c', 'p', ':', '/', '/']

/-- Function `parse_tcp_target` (lines 207-232): succeeds iff the path starts with
`tcp://` and the remainder has a colon whose last occurrence is not at
position 0 (`colon == start` in the C code).  The host is the text before
the last colon, truncated to `host_len - 1` bytes; the port is `atoi` of
the text after it.  The caller (`connect_to_server`) passes
`host_len = 256`. -/
def parse_tcp_target (path : List Char) (host_len : Nat) :
    Option (List Char × Int) :=
  if tcpScheme.isPrefixOf path then
    let start := path.drop 6
    match strrchrIdx start ':' with
    | none => none
    | some 0 => none
    | some i =>
      let hlen := if host_len ≤ i then host_len - 1 else i
      some (start.take hlen, atoi (start.drop (i + 1)))
  else
    none

/-! ### Incoming-message decoding (`find_json_value` /
`handle_server_message`, iotc_relay_client.c lines 338-366 and 418-474). -/

/-- C `strstr`: the suffix of `hay` starting at the first occurrence of
`needle`, or `none`. -/
def strstr (hay needle : List Char) : Option (List Char) :=
  if needle.isPrefixOf hay then some hay
  else
    match hay with
    | [] => none
    | _ :: t => strstr t needle

def isSpaceTab (c : Char) : Bool := c = ' ' || c = '\t'

/-- The trailing-whitespace trim at lines 467-470: `p` walks back from the
last byte while `p > value`, so the first byte is never trimmed. -/
def trimTrailing (v : List Char) : List Char :=
  match v with
  | [] => []
  | c :: rest => c :: (rest.reverse.dropWhile isSpaceTab).reverse

/-- Function `find_json_value(json, key)` (lines 418-474): search for `"key":`,
skip spaces/tabs, then read either a quoted string (up to the next quote,
`none` if unterminated) or an unquoted token up to `,`, `}`, `\n` or end
of string, with trailing spaces/tabs trimmed (never the first byte). -/
def find_json_value (json key : List Char) : Option (List Char) :=
  let search := '"' :: key ++ ['"', ':']
  match strstr json search with
  | none => none
  | some atKey =>
    let afterKey := atKey.drop search.length
    let start := afterKey.dropWhile isSpaceTab
    match start with
    | '"' :: afterQuote =>
      if afterQuote.contains '"' then
        some (afterQuote.takeWhile (fun c => c ≠ '"'))
      else
        none
    | _ =>
      some (trimTrailing
        (start.takeWhile (fun c => c ≠ ',' && c ≠ '\x7d' && c ≠ '\n')))

/-- Function `handle_server_message` (lines 338-366): dispatch `(command_name,
parameters-or-empty)` iff the `type` lookup yields `command`, the
`command_name` lookup succeeds, and a callback is registered (`cb` mirrors
`client->command_callback != NULL`).  The C function reads but never
writes any connection state. -/
def handle_server_message (cb : Bool) (message : List Char) :
    Option (List Char × List Char) :=
  match find_json_value message "type".toList with
  | none => none
  | some ty =>
    if ty = "command".toList then
      match find_json_value message "command_name".toList with
      | none => none
      | some cn =>
        if cb then
          some (cn, (find_json_value message "parameters".toList).getD [])
        else
          none
    else
      none

/-! ### Client state (`struct IotcRelayClient`, iotc_relay_client.c
lines 27-39).

`openFds` is ghost instrumentation: the list of file descriptors this
client has obtained from `socket()` and not yet passed to `close()`.  It
lets the development speak about how many sockets are open.  The pthread
handles and the mutex itself are not part of the shallow state; operations
are modelled at the granularity of the critical sections of the C code. -/

structure ClientState where
  socket_path : String
  client_id : String
  sockfd : Int
  is_connected : Bool
  is_running : Bool
  reconnect_delay : Nat
  has_callback : Bool
  openFds : List Int
  deriving Repr, DecidableEq

/-- Environment oracle for one `connect_to_server` invocation: the results
of the external calls it makes.  `socketRes = none` models `socket()`
returning `-1`; `some fd` a fresh descriptor. -/
structure ConnEnv where
  socketRes : Option Nat
  ptonOk : Bool
  resolveOk : Bool
  connectOk : Bool
  regSendOk : Bool
  recvThreadOk : Bool
  deriving Repr, DecidableEq

/-- Function `send_message` (lines 325-336): `sent` is the return value of
`send()`.  On a negative or short write the connection flag is cleared
(the socket is NOT closed) and `IOTC_RELAY_ERROR_SEND` is returned. -/
def send_message (st : ClientState) (msgLen : Nat) (sent : Int) :
    ClientState × Int :=
  if sent < 0 ∨ sent ≠ (msgLen : Int) then
    ({ st with is_connected := false }, IOTC_RELAY_ERROR_SEND)
  else
    (st, IOTC_RELAY_SUCCESS)

/-- Function `disconnect_from_server` (lines 312-323): under the lock, clear the
connection flag and, when the descriptor is valid, close and invalidate
it. -/
def disconnect_from_server (st : ClientState) : ClientState :=
  let st1 := { st with is_connected := false }
  if 0 ≤ st1.sockfd then
    { st1 with sockfd := -1, openFds := st1.openFds.erase st1.sockfd }
  else
    st1

/-- Function `connect_to_server` (lines 234-310).  The TCP branch creates a socket,
tries `inet_pton` then `gethostbyname`, then `connect`; the Unix branch
creates a socket then `connect`.  Failure of the register send is ignored
(best effort) but, through `send_message`, still clears the connection
flag.  A receive-thread creation failure tears the connection down and
returns `IOTC_RELAY_ERROR_SOCKET`. -/
def connect_to_server (st : ClientState) (env : ConnEnv) :
    ClientState × Int :=
  let afterTransport : Option ClientState :=
    match parse_tcp_target st.socket_path.toList 256 with
    | some _ =>
      match env.socketRes with
      | none => none
      | some fd =>
        if ¬ env.ptonOk ∧ ¬ env.resolveOk then none
        else if ¬ env.connectOk then none
        else some { st with sockfd := (fd : Int),
                            openFds := (fd : Int) :: st.openFds }
    | none =>
      match env.socketRes with
      | none => none
      | some fd =>
        if ¬ env.connectOk then none
        else some { st with sockfd := (fd : Int),
                            openFds := (fd : Int) :: st.openFds }
  match afterTransport with
  | none =>
    match env.socketRes with
    | none => ({ st with sockfd := -1 }, IOTC_RELAY_ERROR_SOCKET)
    | some fd =>
      ({ st with sockfd := -1,
                 openFds := (((fd : Int) :: st.openFds).erase (fd : Int)) },
       IOTC_RELAY_ERROR_CONNECT)
  | some st1 =>
    let st2 := { st1 with is_connected := true }
    let reg := create_json_register st.client_id
    let st3 := (send_message st2 reg.length
      (if env.regSendOk then (reg.length : Int) else -1)).1
    if env.recvThreadOk then
      (st3, IOTC_RELAY_SUCCESS)
    else
      (disconnect_from_server st3, IOTC_RELAY_ERROR_SOCKET)

/-! ### Public API (`iotc_relay_client_*`).  A NULL handle or NULL string
argument is modelled as `none`. -/

/-- Function `iotc_relay_client_create` (lines 49-76): NULL path or NULL client id
gives NULL; otherwise the strings are `strncpy`-truncated to the buffer
sizes (255 and 63 content bytes) and the state is initialised. -/
def iotc_relay_client_create (socket_path client_id : Option String)
    (has_cb : Bool) : Option ClientState :=
  match socket_path, client_id with
  | some p, some cid =>
    some { socket_path := (p.toList.take 255).asString
           client_id := (cid.toList.take 63).asString
           sockfd := -1
           is_connected := false
           is_running := false
           reconnect_delay := 5
           has_callback := has_cb
           openFds := [] }
  | _, _ => none

/-- Function `iotc_relay_client_start` (lines 78-99): NULL gives
`IOTC_RELAY_ERROR_INVALID_PARAM`; otherwise set the running flag, make one
synchronous connect attempt (result only logged), then create the
reconnect thread; if that fails, clear the running flag and return
`IOTC_RELAY_ERROR_SOCKET`. -/
def iotc_relay_client_start (client : Option ClientState) (env : ConnEnv)
    (reconThreadOk : Bool) : Option ClientState × Int :=
  match client with
  | none => (none, IOTC_RELAY_ERROR_INVALID_PARAM)
  | some st =>
    let st1 := { st with is_running := true }
    let st2 := (connect_to_server st1 env).1
    if reconThreadOk then
      (some st2, IOTC_RELAY_SUCCESS)
    else
      (some { st2 with is_running := false }, IOTC_RELAY_ERROR_SOCKET)

/-- Function `iotc_relay_client_stop` (lines 101-121): NULL returns with no
effect; otherwise clear the running flag and disconnect. -/
def iotc_relay_client_stop (client : Option ClientState) :
    Option ClientState :=
  match client with
  | none => none
  | some st => some (disconnect_from_server { st with is_running := false })

/-- Function `iotc_relay_client_destroy` (lines 123-132): NULL returns with no
effect; otherwise stop and free the state. -/
def iotc_relay_client_destroy (client : Option ClientState) :
    Option ClientState :=
  match client with
  | none => none
  | some _ => none

/-- Function `iotc_relay_client_is_connected` (lines 134-147): NULL gives
`false`; otherwise the connection flag read under the lock. -/
def iotc_relay_client_is_connected (client : Option ClientState) : Bool :=
  match client with
  | none => false
  | some st => st.is_connected

/-- Function `iotc_relay_client_send_telemetry` (lines 149-177): NULL client or
NULL payload gives `IOTC_RELAY_ERROR_INVALID_PARAM`; under the lock, a
disconnected client gives `IOTC_RELAY_ERROR_DISCONNECTED` with no write;
otherwise the telemetry envelope is encoded and written once (`sendRes` is
the `send()` result).  The third component is the message handed to
`send()`, `none` when no write was attempted. -/
def iotc_relay_client_send_telemetry (client : Option ClientState)
    (json_data : Option String) (sendRes : Int) :
    Option ClientState × Int × Option String :=
  match client, json_data with
  | none, _ => (none, IOTC_RELAY_ERROR_INVALID_PARAM, none)
  | some st, none => (some st, IOTC_RELAY_ERROR_INVALID_PARAM, none)
  | some st, some j =>
    if ¬ st.is_connected then
      (some st, IOTC_RELAY_ERROR_DISCONNECTED, none)
    else
      let message := create_json_telemetry st.client_id j
      let r := send_message st message.length sendRes
      (some r.1, r.2, some message)

/-! ### Receive-loop framing (`receive_thread_func`, iotc_relay_client.c
lines 368-400).

`message_buffer` is `char[IOTC_RELAY_BUFFER_SIZE * 2]`, i.e. 8192 bytes,
of which at most `2*4096 - 1 = 8191` can hold content (the last byte is
the NUL terminator).  Each `recv` chunk is appended with
`strncat(message_buffer, buffer, sizeof(message_buffer) -
strlen(message_buffer) - 1)`, which silently drops the bytes that do not
fit.  The inner loop repeatedly takes the text before the first `'\n'` as
one frame, hands it to `handle_server_message`, and `memmove`s the rest
down. -/

/-- The `strncat` append with the capacity bound of line 388. -/
def strncatCap (buf chunk : List Char) : List Char :=
  buf ++ chunk.take (2 * 4096 - buf.length - 1)

theorem dropWhile_tail_length_lt (buf : List Char)
    (h : buf.contains '\n' = true) :
    ((buf.dropWhile fun c => c ≠ '\n').tail).length < buf.length := by
  simp only [List.contains_eq_any_beq, List.any_eq_true] at h
  obtain ⟨c, hc, hceq⟩ := h
  have hne : buf.dropWhile (fun c => c ≠ '\n') ≠ [] := by
    intro hnil
    rw [List.dropWhile_eq_nil_iff] at hnil
    have hd := hnil c hc
    rw [decide_eq_true_iff] at hd
    exact hd (eq_of_beq hceq).symm
  have hle : (buf.dropWhile (fun c => c ≠ '\n')).length ≤ buf.length :=
    List.Sublist.length_le (List.dropWhile_sublist _)
  cases hd : buf.dropWhile (fun c => c ≠ '\n') with
  | nil => exact absurd hd hne
  | cons a t =>
    rw [hd] at hle
    simp only [hd, List.tail_cons]
    simp only [List.length_cons] at hle
    omega

/-- The inner `while ((newline = strchr(message_buffer, '\n')) != NULL)`
loop of lines 390-396: repeatedly split off the text before the first
newline as a frame, dropping the newline itself; returns the frames in
order together with the final buffer contents. -/
def drainFrames (buf : List Char) : List (List Char) × List Char :=
  if h : buf.contains '\n' then
    let pre := buf.takeWhile (fun c => c ≠ '\n')
    let rest := (buf.dropWhile (fun c => c ≠ '\n')).tail
    let r := drainFrames rest
    (pre :: r.1, r.2)
  else
    ([], buf)
termination_by buf.length
decreasing_by
  exact dropWhile_tail_length_lt buf h

/-- The outer read loop of lines 376-397, given the successful `recv`
chunks in order: append each chunk (capacity-bounded) and drain complete
frames.  Returns all frames dispatched to `handle_server_message`, in
order, and the final accumulation buffer. -/
def receiveLoop : List Char → List (List Char) → List (List Char) × List Char
  | buf, [] => ([], buf)
  | buf, chunk :: rest =>
    let r1 := drainFrames (strncatCap buf chunk)
    let r2 := receiveLoop r1.2 rest
    (r1.1 ++ r2.1, r2.2)

/-- Specification-side framing: the newline-split of a byte stream — the
maximal newline-terminated segments (without their terminators) in order,
and the unterminated tail.  This is the spec notion of framing against
which the receive loop's behaviour is compared; it is proved equal to the
source-derived `drainFrames` below. -/
def splitFrames : List Char → List (List Char) × List Char
  | [] => ([], [])
  | c :: rest =>
    let r := splitFrames rest
    if c = '\n' then ([] :: r.1, r.2)
    else
      match r.1 with
      | [] => ([], c :: r.2)
      | f :: fs => ((c :: f) :: fs, r.2)

/-- No append ever exceeds the accumulation buffer's 8191 content bytes
along the run (the buffer evolving by newline-splitting, which
`drainFrames_eq_splitFrames` below shows is what the code computes). -/
def noOverflow : List Char → List (List Char) → Bool
  | _, [] => true
  | buf, chunk :: rest =>
    decide (buf.length + chunk.length ≤ 8191) &&
      noOverflow (splitFrames (buf ++ chunk)).2 rest

/-! ### Reachable client states.

One constructor per code path that touches the shared
connection-state/socket group, each invoking the corresponding model
function; `connect` transitions carry the guard that the reconnect
supervisor (and the single initial attempt in `start`) only call
`connect_to_server` while disconnected, and that `socket()` returns either
failure or a descriptor not currently open. -/

def freshFd (st : ClientState) (env : ConnEnv) : Prop :=
  match env.socketRes with
  | none => True
  | some fd => (fd : Int) ∉ st.openFds

instance (st : ClientState) (env : ConnEnv) : Decidable (freshFd st env) := by
  unfold freshFd
  cases env.socketRes <;> infer_instance

inductive Reachable : ClientState → Prop
  | created (p cid : String) (cb : Bool) (st : ClientState)
      (h : iotc_relay_client_create (some p) (some cid) cb = some st) :
      Reachable st
  | connects {s : ClientState} (env : ConnEnv) (hr : Reachable s)
      (hdisc : s.is_connected = false) (hfd : freshFd s env) :
      Reachable (connect_to_server s env).1
  | recvFails {s : ClientState} (hr : Reachable s)
      (hconn : s.is_connected = true) :
      Reachable { s with is_connected := false }
  | sendDone {s s' : ClientState} (j : String) (res : Int)
      (hr : Reachable s)
      (h : (iotc_relay_client_send_telemetry (some s) (some j) res).1
            = some s') :
      Reachable s'
  | stops {s : ClientState} (hr : Reachable s) :
      Reachable (disconnect_from_server { s with is_running := false })

/-! ### Helper lemmas -/

theorem isPrefixOf_iff_exists :
    ∀ (a b : List Char), a.isPrefixOf b = true ↔ ∃ t, b = a ++ t := by
  intro a
  induction a with
  | nil => intro b; simp [List.isPrefixOf]
  | cons x xs ih =>
    intro b
    cases b with
    | nil => simp [List.isPrefixOf]
    | cons y ys =>
      simp only [List.isPrefixOf, Bool.and_eq_true, beq_iff_eq, ih ys,
        List.cons_append, List.cons.injEq]
      constructor
      · rintro ⟨hxy, t, ht⟩; exact ⟨t, hxy.symm, ht⟩
      · rintro ⟨t, hxy, ht⟩; exact ⟨hxy.symm, t, ht⟩

theorem contains_iff_mem {l : List Char} {c : Char} :
    l.contains c = true ↔ c ∈ l := by
  simp [List.contains]

theorem strrchrIdx_isSome_iff {s : List Char} {c : Char} :
    (strrchrIdx s c).isSome = true ↔ c ∈ s := by
  induction s with
  | nil => simp [strrchrIdx]
  | cons a t ih =>
    simp only [strrchrIdx]
    cases h : strrchrIdx t c with
    | some i => simp [← ih, h]
    | none =>
      by_cases hac : a = c
      · simp [hac, if_pos]
      · simp only [if_neg hac, List.mem_cons]
        simp [← ih, h, Ne.symm hac]

theorem strrchrIdx_pos_iff {s : List Char} {c : Char} :
    (∃ i, strrchrIdx s c = some i ∧ 1 ≤ i) ↔ c ∈ s.drop 1 := by
  cases s with
  | nil => simp [strrchrIdx]
  | cons a t =>
    simp only [strrchrIdx, List.drop_succ_cons, List.drop_zero]
    cases h : strrchrIdx t c with
    | some i =>
      have : (strrchrIdx t c).isSome = true := by simp [h]
      rw [strrchrIdx_isSome_iff] at this
      simp [this]
    | none =>
      have : ¬ (strrchrIdx t c).isSome = true := by simp [h]
      rw [strrchrIdx_isSome_iff] at this
      by_cases hac : a = c <;> simp [hac, this]

theorem strrchrIdx_lt_length {s : List Char} {c : Char} {i : Nat}
    (h : strrchrIdx s c = some i) : i < s.length := by
  induction s generalizing i with
  | nil => simp [strrchrIdx] at h
  | cons a t ih =>
    simp only [strrchrIdx] at h
    cases ht : strrchrIdx t c with
    | some j =>
      rw [ht] at h
      cases h
      have := ih ht
      simp only [List.length_cons]
      omega
    | none =>
      rw [ht] at h
      by_cases hac : a = c
      · simp [hac] at h
        cases h
        simp
      · simp [hac] at h

/-! ### splitFrames equation and structure lemmas -/

theorem splitFrames_cons_nl (l : List Char) :
    splitFrames ('\n' :: l) = ([] :: (splitFrames l).1, (splitFrames l).2) := by
  simp [splitFrames]

theorem splitFrames_cons_ne_of_nil {c : Char} {l : List Char}
    (hc : c ≠ '\n') (h : (splitFrames l).1 = []) :
    splitFrames (c :: l) = ([], c :: (splitFrames l).2) := by
  simp only [splitFrames, if_neg hc]
  rw [h]

theorem splitFrames_cons_ne_of_cons {c : Char} {l f : List Char}
    {fs : List (List Char)} (hc : c ≠ '\n') (h : (splitFrames l).1 = f :: fs) :
    splitFrames (c :: l) = ((c :: f) :: fs, (splitFrames l).2) := by
  simp only [splitFrames, if_neg hc]
  rw [h]

theorem splitFrames_of_not_mem {l : List Char} (h : '\n' ∉ l) :
    splitFrames l = ([], l) := by
  induction l with
  | nil => rfl
  | cons c t ih =>
    have hc : c ≠ '\n' := by
      intro hh; exact h (by simp [hh])
    have ht : '\n' ∉ t := fun hh => h (by simp [hh])
    rw [splitFrames_cons_ne_of_nil hc (by rw [ih ht]), ih ht]

theorem splitFrames_snd_not_mem (l : List Char) :
    '\n' ∉ (splitFrames l).2 := by
  induction l with
  | nil => simp [splitFrames]
  | cons c t ih =>
    by_cases hc : c = '\n'
    · subst hc; rw [splitFrames_cons_nl]; exact ih
    · cases h : (splitFrames t).1 with
      | nil =>
        rw [splitFrames_cons_ne_of_nil hc h]
        simp only [List.mem_cons, not_or]
        exact ⟨fun hh => hc hh.symm, ih⟩
      | cons f fs =>
        rw [splitFrames_cons_ne_of_cons hc h]
        exact ih

theorem splitFrames_snd_length_le (l : List Char) :
    (splitFrames l).2.length ≤ l.length := by
  induction l with
  | nil => simp [splitFrames]
  | cons c t ih =>
    by_cases hc : c = '\n'
    · subst hc; rw [splitFrames_cons_nl]; simp; omega
    · cases h : (splitFrames t).1 with
      | nil =>
        rw [splitFrames_cons_ne_of_nil hc h]
        simp only [List.length_cons]
        omega
      | cons f fs =>
        rw [splitFrames_cons_ne_of_cons hc h]
        simp only [List.length_cons]
        omega

theorem splitFrames_fst_length_lt {l f : List Char}
    (h : f ∈ (splitFrames l).1) : f.length < l.length := by
  induction l generalizing f with
  | nil => simp [splitFrames] at h
  | cons c t ih =>
    by_cases hc : c = '\n'
    · subst hc
      rw [splitFrames_cons_nl] at h
      rcases List.mem_cons.mp h with h1 | h2
      · subst h1; simp
      · have := ih h2
        simp only [List.length_cons]
        omega
    · cases hsp : (splitFrames t).1 with
      | nil =>
        rw [splitFrames_cons_ne_of_nil hc hsp] at h
        simp at h
      | cons g gs =>
        rw [splitFrames_cons_ne_of_cons hc hsp] at h
        rcases List.mem_cons.mp h with h1 | h2
        · subst h1
          have hg : g ∈ (splitFrames t).1 := by rw [hsp]; simp
          have := ih hg
          simp only [List.length_cons]
          omega
        · have hg : f ∈ (splitFrames t).1 := by rw [hsp]; simp [h2]
          have := ih hg
          simp only [List.length_cons]
          omega

theorem splitFrames_append (x y : List Char) :
    splitFrames (x ++ y) =
      ((splitFrames x).1 ++ (splitFrames ((splitFrames x).2 ++ y)).1,
       (splitFrames ((splitFrames x).2 ++ y)).2) := by
  induction x with
  | nil => simp [splitFrames]
  | cons c t ih =>
    rw [List.cons_append]
    by_cases hc : c = '\n'
    · subst hc
      rw [splitFrames_cons_nl, splitFrames_cons_nl, ih]
      simp
    · cases hA : (splitFrames t).1 with
      | nil =>
        rw [splitFrames_cons_ne_of_nil hc hA, List.nil_append,
          List.cons_append]
        cases hB : (splitFrames ((splitFrames t).2 ++ y)).1 with
        | nil =>
          have h1 : (splitFrames (t ++ y)).1 = [] := by
            rw [ih, hA, hB, List.nil_append]
          rw [splitFrames_cons_ne_of_nil hc h1, ih, hA, hB]
          rw [splitFrames_cons_ne_of_nil hc hB]
        | cons g gs =>
          have h1 : (splitFrames (t ++ y)).1 = g :: gs := by
            rw [ih, hA, hB, List.nil_append]
          rw [splitFrames_cons_ne_of_cons hc h1, ih, hA,
            splitFrames_cons_ne_of_cons hc hB]
      | cons f fs =>
        rw [splitFrames_cons_ne_of_cons hc hA]
        have h1 : (splitFrames (t ++ y)).1 =
            f :: (fs ++ (splitFrames ((splitFrames t).2 ++ y)).1) := by
          rw [ih, hA, List.cons_append]
        rw [splitFrames_cons_ne_of_cons hc h1, ih]
        simp

theorem splitFrames_nonl_append_of_cons {l y f : List Char}
    {fs : List (List Char)} (h : '\n' ∉ l)
    (hy : (splitFrames y).1 = f :: fs) :
    splitFrames (l ++ y) = ((l ++ f) :: fs, (splitFrames y).2) := by
  induction l with
  | nil =>
    simp only [List.nil_append]
    rw [← hy]
  | cons c t ih =>
    have hc : c ≠ '\n' := by
      intro hh; exact h (by simp [hh])
    have ht : '\n' ∉ t := fun hh => h (by simp [hh])
    have h1 : (splitFrames (t ++ y)).1 = (t ++ f) :: fs := by
      rw [ih ht]
    rw [List.cons_append, splitFrames_cons_ne_of_cons hc h1, ih ht]
    simp

theorem splitFrames_of_contains {buf : List Char} (h : '\n' ∈ buf) :
    splitFrames buf =
      ((buf.takeWhile fun c => c ≠ '\n') ::
        (splitFrames ((buf.dropWhile fun c => c ≠ '\n')).tail).1,
       (splitFrames ((buf.dropWhile fun c => c ≠ '\n')).tail).2) := by
  induction buf with
  | nil => simp at h
  | cons c t ih =>
    by_cases hc : c = '\n'
    · subst hc
      rw [splitFrames_cons_nl]
      simp [List.takeWhile_cons, List.dropWhile_cons]
    · have ht : '\n' ∈ t := by
        rcases List.mem_cons.mp h with h1 | h2
        · exact absurd h1.symm hc
        · exact h2
      have htw : (c :: t).takeWhile (fun c => c ≠ '\n') =
          c :: t.takeWhile (fun c => c ≠ '\n') := by
        simp [List.takeWhile_cons, hc]
      have hdw : (c :: t).dropWhile (fun c => c ≠ '\n') =
          t.dropWhile (fun c => c ≠ '\n') := by
        simp [List.dropWhile_cons, hc]
      have h1 : (splitFrames t).1 =
          (t.takeWhile fun c => c ≠ '\n') ::
            (splitFrames ((t.dropWhile fun c => c ≠ '\n')).tail).1 := by
        rw [ih ht]
      rw [splitFrames_cons_ne_of_cons hc h1, htw, hdw, ih ht]

theorem drainFrames_eq_splitFrames (buf : List Char) :
    drainFrames buf = splitFrames buf := by
  generalize hn : buf.length = n
  induction n using Nat.strong_induction_on generalizing buf with
  | _ n ih =>
    subst hn
    by_cases h : buf.contains '\n'
    · have hmem : '\n' ∈ buf := contains_iff_mem.mp h
      have hlt := dropWhile_tail_length_lt buf h
      rw [drainFrames, dif_pos h]
      show ((buf.takeWhile fun c => c ≠ '\n') ::
          (drainFrames ((buf.dropWhile fun c => c ≠ '\n')).tail).1,
        (drainFrames ((buf.dropWhile fun c => c ≠ '\n')).tail).2) =
          splitFrames buf
      rw [ih _ hlt _ rfl, splitFrames_of_contains hmem]
    · have hmem : '\n' ∉ buf := fun hm => h (contains_iff_mem.mpr hm)
      rw [drainFrames, dif_neg h, splitFrames_of_not_mem hmem]

theorem strncatCap_eq_append {buf chunk : List Char}
    (h : buf.length + chunk.length ≤ 8191) :
    strncatCap buf chunk = buf ++ chunk := by
  unfold strncatCap
  rw [List.take_of_length_le (by omega)]

theorem strncatCap_length_le {buf : List Char} (chunk : List Char)
    (hb : buf.length ≤ 8191) :
    (strncatCap buf chunk).length ≤ 8191 := by
  unfold strncatCap
  rw [List.length_append, List.length_take]
  have h1 := Nat.min_le_left (2 * 4096 - buf.length - 1) chunk.length
  omega

theorem receiveLoop_eq_splitFrames (chunks : List (List Char)) :
    ∀ buf, '\n' ∉ buf → noOverflow buf chunks = true →
      receiveLoop buf chunks = splitFrames (buf ++ chunks.flatten) := by
  induction chunks with
  | nil =>
    intro buf hnl _
    simp [receiveLoop, splitFrames_of_not_mem hnl]
  | cons chunk rest ih =>
    intro buf hnl hof
    simp only [noOverflow, Bool.and_eq_true, decide_eq_true_eq] at hof
    obtain ⟨hlen, hrest⟩ := hof
    have hcat : strncatCap buf chunk = buf ++ chunk := strncatCap_eq_append hlen
    have hdrain : drainFrames (strncatCap buf chunk) =
        splitFrames (buf ++ chunk) := by
      rw [hcat, drainFrames_eq_splitFrames]
    have hih := ih (splitFrames (buf ++ chunk)).2
      (splitFrames_snd_not_mem _) hrest
    simp only [receiveLoop, hdrain, hih]
    rw [List.flatten_cons, ← List.append_assoc, splitFrames_append (buf ++ chunk)]

/-- Witness chunk list for the framing theorem: a frame split across two
reads, another complete frame, and a trailing partial byte. -/
def wChunks : List (List Char) := [['a', 'b'], ['\n', 'c'], ['d', '\n']]

/-- Claim C1 (amended with the capacity proviso forced by the 8191-byte
accumulation buffer): for every chunk sequence in which no append exceeds
the buffer's 8191 content bytes, the receive loop dispatches exactly the
newline-delimited frames of the concatenated stream, once each, in receipt
order (so a frame split across two reads is dispatched exactly once when
its newline arrives), and the command dispatches are those frames' decodes
in order. -/
theorem receive_loop_framing (chunks : List (List Char))
    (hof : noOverflow [] chunks = true) :
    receiveLoop [] chunks = splitFrames chunks.flatten ∧
    (receiveLoop [] chunks).1.filterMap (handle_server_message true) =
      (splitFrames chunks.flatten).1.filterMap (handle_server_message true) := by
  have h := receiveLoop_eq_splitFrames chunks [] (by simp) hof
  rw [List.nil_append] at h
  exact ⟨h, by rw [h]⟩

theorem receive_loop_framing_witness :
    noOverflow [] wChunks = true ∧
    (receiveLoop [] wChunks = splitFrames wChunks.flatten ∧
     (receiveLoop [] wChunks).1.filterMap (handle_server_message true) =
       (splitFrames wChunks.flatten).1.filterMap (handle_server_message true)) :=
  ⟨by decide, receive_loop_framing wChunks (by decide)⟩

/-- A maximal-size `recv` chunk (`recv` reads at most
`IOTC_RELAY_BUFFER_SIZE - 1 = 4095` bytes per call). -/
def bigChunk : List Char := List.replicate 4095 'a'

theorem not_mem_replicate_a (n : Nat) : '\n' ∉ List.replicate n 'a' := by
  simp [List.mem_replicate]

theorem splitFrames_replicate_a (n : Nat) :
    splitFrames (List.replicate n 'a') = ([], List.replicate n 'a') :=
  splitFrames_of_not_mem (not_mem_replicate_a n)

/-- Claim C1 counterexample: three maximal chunks followed by the
terminating newline overflow the 8191-byte accumulation buffer; the
newline is silently discarded, so the (complete, newline-terminated)
12285-byte frame of the stream is never dispatched at all, refuting the
unconditional framing claim. -/
theorem receive_loop_overflow_cex :
    (receiveLoop [] [bigChunk, bigChunk, bigChunk, ['\n']]).1 = [] ∧
    (splitFrames (List.flatten [bigChunk, bigChunk, bigChunk, ['\n']])).1 =
      [List.replicate 12285 'a'] := by
  have e1 : strncatCap [] bigChunk = List.replicate 4095 'a' :=
    strncatCap_eq_append (by
      simp only [bigChunk, List.length_nil, List.length_replicate]
      omega)
  have e2 : strncatCap (List.replicate 4095 'a') bigChunk =
      List.replicate 8190 'a' := by
    rw [strncatCap_eq_append (by
      simp only [bigChunk, List.length_replicate]
      omega)]
    rw [bigChunk, ← List.replicate_add]
  have htake1 : bigChunk.take 1 = ['a'] := by
    rw [bigChunk, show (4095 : Nat) = 4094 + 1 by norm_num,
      List.replicate_succ]
    rfl
  have e3 : strncatCap (List.replicate 8190 'a') bigChunk =
      List.replicate 8191 'a' := by
    unfold strncatCap
    rw [List.length_replicate,
      show 2 * 4096 - 8190 - 1 = 1 by norm_num, htake1,
      show (8191 : Nat) = 8190 + 1 by norm_num, List.replicate_add,
      List.replicate_one]
  have e4 : strncatCap (List.replicate 8191 'a') ['\n'] =
      List.replicate 8191 'a' := by
    unfold strncatCap
    rw [List.length_replicate,
      show 2 * 4096 - 8191 - 1 = 0 by norm_num, List.take_zero,
      List.append_nil]
  constructor
  · simp only [receiveLoop, e1, e2, e3, e4, drainFrames_eq_splitFrames,
      splitFrames_replicate_a]
    rfl
  · have hjoin : (List.flatten [bigChunk, bigChunk, bigChunk, ['\n']]) =
        List.replicate 12285 'a' ++ ['\n'] := by
      simp only [List.flatten_cons, List.flatten_nil, List.append_nil,
        bigChunk]
      rw [← List.append_assoc, ← List.append_assoc, ← List.replicate_add,
        ← List.replicate_add]
    rw [hjoin, splitFrames_nonl_append_of_cons (not_mem_replicate_a 12285)
      (show (splitFrames ['\n']).1 = [] :: [] by rfl)]
    simp only [List.append_nil]

theorem receiveLoop_frame_length_lt (chunks : List (List Char)) :
    ∀ buf, buf.length ≤ 8191 →
      ∀ f ∈ (receiveLoop buf chunks).1, f.length < 8191 := by
  induction chunks with
  | nil =>
    intro buf hb f hf
    simp [receiveLoop] at hf
  | cons chunk rest ih =>
    intro buf hb f hf
    simp only [receiveLoop, List.mem_append] at hf
    have hlen : (strncatCap buf chunk).length ≤ 8191 :=
      strncatCap_length_le chunk hb
    rcases hf with hf | hf
    · rw [drainFrames_eq_splitFrames] at hf
      have := splitFrames_fst_length_lt hf
      omega
    · rw [drainFrames_eq_splitFrames] at hf
      have hb2 : (splitFrames (strncatCap buf chunk)).2.length ≤ 8191 := by
        have := splitFrames_snd_length_le (strncatCap buf chunk)
        omega
      exact ih _ hb2 f hf

/-- Claim C10: the accumulation buffer holds at most `2*4096 - 1` content
bytes; an append keeps only the bytes that fit and silently discards the
rest; consequently every dispatched frame is strictly shorter than the
capacity, and a frame that overflows the capacity before its newline
(here 8192 bytes arriving in legal `recv` chunks) is never dispatched
with its full content (it is never dispatched at all). -/
theorem recv_buffer_capacity :
    (∀ buf chunk : List Char, buf.length ≤ 2 * 4096 - 1 →
        strncatCap buf chunk = buf ++ chunk.take (2 * 4096 - 1 - buf.length) ∧
        (strncatCap buf chunk).length ≤ 2 * 4096 - 1) ∧
    (∀ (chunks : List (List Char)) (f : List Char),
        f ∈ (receiveLoop [] chunks).1 → f.length < 2 * 4096 - 1) ∧
    (receiveLoop [] [bigChunk, bigChunk, ['b', '\n']]).1 = [] := by
  refine ⟨?_, ?_, ?_⟩
  · intro buf chunk hb
    constructor
    · unfold strncatCap
      have : 2 * 4096 - buf.length - 1 = 2 * 4096 - 1 - buf.length := by
        omega
      rw [this]
    · exact strncatCap_length_le chunk hb
  · intro chunks f hf
    exact receiveLoop_frame_length_lt chunks [] (by simp) f hf
  · have e1 : strncatCap [] bigChunk = List.replicate 4095 'a' :=
      strncatCap_eq_append (by
        simp only [bigChunk, List.length_nil, List.length_replicate]
        omega)
    have e2 : strncatCap (List.replicate 4095 'a') bigChunk =
        List.replicate 8190 'a' := by
      rw [strncatCap_eq_append (by
        simp only [bigChunk, List.length_replicate]
        omega)]
      rw [bigChunk, ← List.replicate_add]
    have e3 : strncatCap (List.replicate 8190 'a') ['b', '\n'] =
        List.replicate 8190 'a' ++ ['b'] := by
      unfold strncatCap
      rw [List.length_replicate,
        show 2 * 4096 - 8190 - 1 = 1 by norm_num]
      rfl
    have hnb : '\n' ∉ List.replicate 8190 'a' ++ ['b'] := by
      intro hmem
      rcases List.mem_append.mp hmem with h1 | h1
      · exact absurd (List.eq_of_mem_replicate h1) (by decide)
      · simp at h1
    simp only [receiveLoop, e1, e2, e3, drainFrames_eq_splitFrames,
      splitFrames_replicate_a, splitFrames_of_not_mem hnb]
    rfl

theorem recv_buffer_capacity_witness :
    strncatCap ['a'] ['b'] = ['a'] ++ ['b'].take (2 * 4096 - 1 - 1) ∧
    (strncatCap ['a'] ['b']).length ≤ 2 * 4096 - 1 :=
  recv_buffer_capacity.1 ['a'] ['b'] (by decide)

/-! ### Decode and encode claims -/

/-- The spec §8 sample command line
`{"type":"command","command_name":"Command_A","parameters":"42"}`. -/
def cmdLine : List Char :=
  "\x7b\"type\":\"command\",\"command_name\":\"Command_A\",\"parameters\":\"42\"\x7d".toList

/-- The spec §8 sample non-command line
`{"type":"telemetry","client_id":"x","data":{}}`. -/
def teleLine : List Char :=
  "\x7b\"type\":\"telemetry\",\"client_id\":\"x\",\"data\":\x7b\x7d\x7d".toList

/-- Claim C3: with a callback registered, decoding a line dispatches
exactly once iff the `type` lookup yields `command` and a `command_name`
is found, passing the parameters value or the empty string when absent;
any other line produces no dispatch (and `handle_server_message` never
touches connection state — it is a pure reader of the line).  The spec §8
byte-stream test case is included concretely. -/
theorem handle_server_message_spec :
    (∀ (msg cn p : List Char),
        handle_server_message true msg = some (cn, p) ↔
          (find_json_value msg "type".toList = some "command".toList ∧
           find_json_value msg "command_name".toList = some cn ∧
           p = (find_json_value msg "parameters".toList).getD [])) ∧
    handle_server_message true cmdLine =
      some ("Command_A".toList, "42".toList) ∧
    handle_server_message true teleLine = none := by
  refine ⟨?_, by decide, by decide⟩
  intro msg cn p
  rcases hty : find_json_value msg "type".toList with _ | ty
  · have hnone : handle_server_message true msg = none := by
      unfold handle_server_message
      rw [hty]
    rw [hnone]
    simp [hty]
  · by_cases hcmd : ty = "command".toList
    · subst hcmd
      rcases hcn : find_json_value msg "command_name".toList with _ | cn0
      · have hnone : handle_server_message true msg = none := by
          unfold handle_server_message
          simp only [hty, hcn, if_true]
        rw [hnone]
        simp
      · have hcomp : handle_server_message true msg =
            some (cn0, (find_json_value msg "parameters".toList).getD []) := by
          unfold handle_server_message
          simp only [hty, hcn, if_true]
        rw [hcomp]
        simp only [Option.some.injEq, Prod.mk.injEq, eq_self_iff_true,
          true_and]
        constructor
        · rintro ⟨h1, h2⟩
          exact ⟨h1, h2.symm⟩
        · rintro ⟨h1, h2⟩
          exact ⟨h1, h2.symm⟩
    · have hnone : handle_server_message true msg = none := by
        unfold handle_server_message
        simp only [hty]
        rw [if_neg hcmd]
      rw [hnone]
      constructor
      · intro h
        exact Option.noConfusion h
      · rintro ⟨h1, -, -⟩
        injection h1 with h1
        exact absurd h1 hcmd

/-- Claim C4: the telemetry envelope is exactly the JSON object text with
the payload inserted verbatim followed by one newline, likewise the
register envelope; the spec §8 concrete test vector is checked exactly. -/
theorem create_json_exact (cid data : String) :
    create_json_telemetry cid data =
      ("\x7b\"type\":\"telemetry\",\"client_id\":\"" ++ cid ++
        "\",\"data\":" ++ data ++ "\x7d") ++ "\n" ∧
    create_json_register cid =
      ("\x7b\"type\":\"register\",\"client_id\":\"" ++ cid ++ "\"\x7d") ++
        "\n" ∧
    create_json_telemetry "abc" "\x7b\"temperature\":25.5\x7d" =
      "\x7b\"type\":\"telemetry\",\"client_id\":\"abc\",\"data\":\x7b\"temperature\":25.5\x7d\x7d\n" := by
  have hbrace : ("\x7d" ++ "\n" : String) = "\x7d\n" := by decide
  have hqbrace : ("\"\x7d" ++ "\n" : String) = "\"\x7d\n" := by decide
  refine ⟨?_, ?_, by decide⟩
  · unfold create_json_telemetry
    simp only [String.append_assoc, hbrace]
  · unfold create_json_register
    simp only [String.append_assoc, hqbrace]

/-! ### Send-path and transport claims -/

/-- A freshly created, disconnected client used as a concrete witness
state. -/
def sampleClient : ClientState :=
  { socket_path := "/tmp/iotc.sock"
    client_id := "dev1"
    sockfd := -1
    is_connected := false
    is_running := true
    reconnect_delay := 5
    has_callback := true
    openFds := [] }

/-- The same client after a successful connect on descriptor 3. -/
def sampleConnected : ClientState :=
  { sampleClient with is_connected := true, sockfd := 3, openFds := [3] }

/-- Claim C2: `sendTelemetry` on a disconnected client returns the
`Disconnected` error, attempts no write (third component `none`), and
returns the state unchanged. -/
theorem send_telemetry_disconnected (st : ClientState) (j : String)
    (res : Int) (h : st.is_connected = false) :
    iotc_relay_client_send_telemetry (some st) (some j) res =
      (some st, IOTC_RELAY_ERROR_DISCONNECTED, none) := by
  simp [iotc_relay_client_send_telemetry, h]

theorem send_telemetry_disconnected_witness :
    sampleClient.is_connected = false ∧
    iotc_relay_client_send_telemetry (some sampleClient)
        (some "\x7b\"t\":1\x7d") 0 =
      (some sampleClient, IOTC_RELAY_ERROR_DISCONNECTED, none) :=
  ⟨rfl, send_telemetry_disconnected sampleClient "\x7b\"t\":1\x7d" 0 rfl⟩

/-- Claim C6: on a connected client, a failed (`res < 0`) or short write
clears the connection flag, returns the `Send` error, and attempts exactly
one write of the whole encoded envelope — no retry of the remainder. -/
theorem send_telemetry_write_failure (st : ClientState) (j : String)
    (res : Int) (hc : st.is_connected = true)
    (hfail : res < 0 ∨ res ≠ ((create_json_telemetry st.client_id j).length : Int)) :
    iotc_relay_client_send_telemetry (some st) (some j) res =
      (some { st with is_connected := false }, IOTC_RELAY_ERROR_SEND,
       some (create_json_telemetry st.client_id j)) := by
  have hred : iotc_relay_client_send_telemetry (some st) (some j) res =
      (if ¬ st.is_connected = true then
        (some st, IOTC_RELAY_ERROR_DISCONNECTED, none)
      else
        (some (send_message st
            (create_json_telemetry st.client_id j).length res).1,
         (send_message st
            (create_json_telemetry st.client_id j).length res).2,
         some (create_json_telemetry st.client_id j))) := rfl
  rw [hred, if_neg (by simp [hc])]
  unfold send_message
  rw [if_pos hfail]

theorem send_telemetry_write_failure_witness :
    sampleConnected.is_connected = true ∧
    ((-1 : Int) < 0 ∨
      (-1 : Int) ≠ ((create_json_telemetry sampleConnected.client_id "\x7b\x7d").length : Int)) ∧
    iotc_relay_client_send_telemetry (some sampleConnected)
        (some "\x7b\x7d") (-1) =
      (some { sampleConnected with is_connected := false },
       IOTC_RELAY_ERROR_SEND,
       some (create_json_telemetry sampleConnected.client_id "\x7b\x7d")) :=
  ⟨rfl, Or.inl (by decide),
   send_telemetry_write_failure sampleConnected "\x7b\x7d" (-1) rfl
     (Or.inl (by decide))⟩

/-- Claim C5 (amended: the code never checks that the port text is
numeric — `atoi` simply yields 0 on non-numeric text): resolution
produces a TCP target iff the string starts with `tcp://` and a colon
occurs after the first byte of the remainder (equivalently, the last
colon is not immediately after the prefix, so the host is non-empty);
every other string — including `tcp://` with no port separator — falls
back to a filesystem path (`none`); resolution is a pure function of the
syntax.  Concrete cases: a numeric TCP target, a plain path, and a
`tcp://` string without a separator. -/
theorem parse_tcp_target_characterization (p : List Char) :
    ((parse_tcp_target p 256).isSome = true ↔
        (tcpScheme.isPrefixOf p = true ∧ ':' ∈ p.drop 7)) ∧
    (∀ h pt, parse_tcp_target p 256 = some (h, pt) → h ≠ []) ∧
    parse_tcp_target "tcp://192.168.0.7:8899".toList 256 =
      some ("192.168.0.7".toList, 8899) ∧
    parse_tcp_target "/tmp/iotc.sock".toList 256 = none ∧
    parse_tcp_target "tcp://noport".toList 256 = none := by
  refine ⟨?_, ?_, by decide, by decide, by decide⟩
  · unfold parse_tcp_target
    by_cases hpre : tcpScheme.isPrefixOf p
    · rw [if_pos hpre]
      have hdrop : p.drop 7 = (p.drop 6).drop 1 := by
        rw [List.drop_drop]
      rw [hdrop, ← strrchrIdx_pos_iff]
      rcases hidx : strrchrIdx (p.drop 6) ':' with _ | i
      · simp [hidx, hpre]
      · cases i with
        | zero => simp [hidx, hpre]
        | succ j =>
          simp only [hidx, Option.isSome_some, true_iff, hpre, true_and,
            Option.some.injEq]
          exact ⟨j + 1, rfl, by omega⟩
    · rw [if_neg hpre]
      simp [hpre]
  · intro h pt hsome
    unfold parse_tcp_target at hsome
    by_cases hpre : tcpScheme.isPrefixOf p
    · rw [if_pos hpre] at hsome
      rcases hidx : strrchrIdx (p.drop 6) ':' with _ | i
      · simp only [hidx] at hsome
        exact Option.noConfusion hsome
      · cases i with
        | zero =>
          simp only [hidx] at hsome
          exact Option.noConfusion hsome
        | succ j =>
          simp only [hidx, Option.some.injEq, Prod.mk.injEq] at hsome
          obtain ⟨hh, -⟩ := hsome
          have hlen : j + 1 < (p.drop 6).length := strrchrIdx_lt_length hidx
          intro hnil
          rw [← hh] at hnil
          rw [List.take_eq_nil_iff] at hnil
          rcases hnil with h0 | hnil
          · by_cases h256 : 256 ≤ j + 1 <;> simp [h256] at h0 <;> omega
          · rw [hnil] at hlen
            simp at hlen
    · rw [if_neg hpre] at hsome
      cases hsome

theorem parse_tcp_target_characterization_witness :
    parse_tcp_target "tcp://h:1".toList 256 = some (['h'], 1) ∧
    (['h'] : List Char) ≠ [] :=
  ⟨by decide,
   (parse_tcp_target_characterization "tcp://h:1".toList).2.1 ['h'] 1
     (by decide)⟩

/-- Claim C5 counterexample: `tcp://h:x` has a non-numeric port, yet the
resolver produces a TCP target (host `h`, port 0 from `atoi`) instead of
falling back to a filesystem path, refuting the claimed
"port numeric" condition. -/
theorem parse_tcp_target_nonnumeric_port_cex :
    parse_tcp_target "tcp://h:x".toList 256 = some (['h'], 0) ∧
    "x".toList.all Char.isDigit = false := by
  decide

/-! ### Connection-lifecycle claims -/

theorem send_message_sockfd (st : ClientState) (msgLen : Nat) (sent : Int) :
    (send_message st msgLen sent).1.sockfd = st.sockfd := by
  unfold send_message
  split <;> rfl

theorem send_message_openFds (st : ClientState) (msgLen : Nat) (sent : Int) :
    (send_message st msgLen sent).1.openFds = st.openFds := by
  unfold send_message
  split <;> rfl

/-- Claim C8 (amended: §7's taxonomy — a `socket()` creation failure
returns the `Socket` error, not `Connect`; resolve/connect failures return
`Connect`): every failing `connect_to_server` leaves the client's socket
field at `-1` and closes every descriptor the invocation opened (the open
set is exactly as before the call); a `socket()` failure yields the
`Socket` error, a transport-connect failure (socket obtained,
`connect()` refused) yields the `Connect` error, and on a TCP target an
address-resolution failure (both `inet_pton` and `gethostbyname` fail)
yields the `Connect` error. -/
theorem connect_to_server_failure (st : ClientState) (env : ConnEnv)
    (h : (connect_to_server st env).2 ≠ IOTC_RELAY_SUCCESS) :
    (connect_to_server st env).1.sockfd = -1 ∧
    (connect_to_server st env).1.openFds = st.openFds ∧
    ((connect_to_server st env).2 = IOTC_RELAY_ERROR_SOCKET ∨
     (connect_to_server st env).2 = IOTC_RELAY_ERROR_CONNECT) ∧
    (env.socketRes = none →
      (connect_to_server st env).2 = IOTC_RELAY_ERROR_SOCKET) ∧
    (∀ fd, env.socketRes = some fd → env.connectOk = false →
      (connect_to_server st env).2 = IOTC_RELAY_ERROR_CONNECT) ∧
    (∀ fd tgt, env.socketRes = some fd →
      parse_tcp_target st.socket_path.data 256 = some tgt →
      env.ptonOk = false → env.resolveOk = false →
      (connect_to_server st env).2 = IOTC_RELAY_ERROR_CONNECT) := by
  rcases hs : env.socketRes with _ | fd
  · rcases hp : parse_tcp_target st.socket_path.data 256 with _ | tgt <;>
      simp [connect_to_server, hp, hs]
  · rcases hp : parse_tcp_target st.socket_path.data 256 with _ | tgt
    · by_cases hco : env.connectOk
      · by_cases hrt : env.recvThreadOk
        · exfalso
          apply h
          simp [connect_to_server, hp, hs, hco, hrt]
        · simp [connect_to_server, hp, hs, hco, hrt,
            disconnect_from_server, send_message_sockfd,
            send_message_openFds, List.erase_cons_head,
            Int.natCast_nonneg]
      · simp [connect_to_server, hp, hs, hco, List.erase_cons_head]
    · by_cases hpt : env.ptonOk
      · by_cases hco : env.connectOk
        · by_cases hrt : env.recvThreadOk
          · exfalso
            apply h
            simp [connect_to_server, hp, hs, hpt, hco, hrt]
          · simp [connect_to_server, hp, hs, hpt, hco, hrt,
              disconnect_from_server, send_message_sockfd,
              send_message_openFds, List.erase_cons_head,
              Int.natCast_nonneg]
        · simp [connect_to_server, hp, hs, hpt, hco,
            List.erase_cons_head]
      · by_cases hrs : env.resolveOk
        · by_cases hco : env.connectOk
          · by_cases hrt : env.recvThreadOk
            · exfalso
              apply h
              simp [connect_to_server, hp, hs, hpt, hrs, hco, hrt]
            · simp [connect_to_server, hp, hs, hpt, hrs, hco, hrt,
                disconnect_from_server, send_message_sockfd,
                send_message_openFds, List.erase_cons_head,
                Int.natCast_nonneg]
          · simp [connect_to_server, hp, hs, hpt, hrs, hco,
              List.erase_cons_head]
        · simp [connect_to_server, hp, hs, hpt, hrs,
            List.erase_cons_head]

/-- A client configured with a TCP address, for exercising the TCP
failure paths. -/
def sampleTcpClient : ClientState :=
  { sampleClient with socket_path := "tcp://relay.example.com:9000" }

/-- An environment in which the socket is obtained (fd 5) but both
address resolution and the transport connect fail. -/
def envTcpFail : ConnEnv :=
  { socketRes := some 5, ptonOk := false, resolveOk := false,
    connectOk := false, regSendOk := true, recvThreadOk := true }

theorem connect_to_server_failure_witness :
    (connect_to_server sampleTcpClient envTcpFail).2 ≠ IOTC_RELAY_SUCCESS ∧
    ((connect_to_server sampleTcpClient envTcpFail).1.sockfd = -1 ∧
     (connect_to_server sampleTcpClient envTcpFail).1.openFds =
       sampleTcpClient.openFds ∧
     ((connect_to_server sampleTcpClient envTcpFail).2 =
        IOTC_RELAY_ERROR_SOCKET ∨
      (connect_to_server sampleTcpClient envTcpFail).2 =
        IOTC_RELAY_ERROR_CONNECT) ∧
     (envTcpFail.socketRes = none →
       (connect_to_server sampleTcpClient envTcpFail).2 =
         IOTC_RELAY_ERROR_SOCKET) ∧
     (∀ fd, envTcpFail.socketRes = some fd →
       envTcpFail.connectOk = false →
       (connect_to_server sampleTcpClient envTcpFail).2 =
         IOTC_RELAY_ERROR_CONNECT) ∧
     (∀ fd tgt, envTcpFail.socketRes = some fd →
       parse_tcp_target sampleTcpClient.socket_path.data 256 = some tgt →
       envTcpFail.ptonOk = false → envTcpFail.resolveOk = false →
       (connect_to_server sampleTcpClient envTcpFail).2 =
         IOTC_RELAY_ERROR_CONNECT)) :=
  ⟨by decide, connect_to_server_failure sampleTcpClient envTcpFail
    (by decide)⟩

/-- Claim C8 counterexample: when `socket()` itself fails the code
returns `IOTC_RELAY_ERROR_SOCKET` (the §7 taxonomy), not the `Connect`
error the claim asserts for all three failure kinds. -/
theorem connect_socket_creation_error_cex :
    (connect_to_server sampleClient
        { socketRes := none, ptonOk := true, resolveOk := true,
          connectOk := true, regSendOk := true,
          recvThreadOk := true }).2 = IOTC_RELAY_ERROR_SOCKET ∧
    IOTC_RELAY_ERROR_SOCKET ≠ IOTC_RELAY_ERROR_CONNECT := by
  decide

/-- The environments of the leak trace: two successful connects handing
out descriptors 3 and then 4. -/
def envA : ConnEnv :=
  { socketRes := some 3, ptonOk := true, resolveOk := true,
    connectOk := true, regSendOk := true, recvThreadOk := true }

def envB : ConnEnv := { envA with socketRes := some 4 }

/-- The freshly created client of the leak trace. -/
def sampleCreated : ClientState :=
  { socket_path := "/tmp/iotc.sock"
    client_id := "dev1"
    sockfd := -1
    is_connected := false
    is_running := false
    reconnect_delay := 5
    has_callback := true
    openFds := [] }

/-- Claim C7 refutation (code bug): a reachable client state has two open
socket descriptors.  Trace: create; connect (fd 3); the server closes the
connection, so the receive thread's `recv` fails and flips the connection
flag WITHOUT closing fd 3 (lines 379-385); the reconnect supervisor
connects again and `client->sockfd = socket(...)` overwrites fd 3 with
fd 4, leaving both open — the spec's "at most one socket handle open" and
"close-and-invalidate atomic with the Disconnected transition" invariants
are violated by the code. -/
theorem socket_handle_leak :
    ∃ s, Reachable s ∧ 2 ≤ s.openFds.length := by
  refine ⟨_, Reachable.connects envB
    (Reachable.recvFails
      (Reachable.connects envA
        (Reachable.created "/tmp/iotc.sock" "dev1" true sampleCreated
          (by decide))
        (by decide) (by decide))
      (by decide))
    (by decide) (by decide), by decide⟩

/-- Claim C9: every public operation tolerates a NULL handle: `create`
yields NULL for a NULL address or client id, `start` and `sendTelemetry`
return `InvalidParam` (the latter also for a NULL payload), `isConnected`
returns false, and `stop`/`destroy` return without effect. -/
theorem null_handle_tolerance :
    (∀ cid cb, iotc_relay_client_create none cid cb = none) ∧
    (∀ p cb, iotc_relay_client_create p none cb = none) ∧
    (∀ env rt, iotc_relay_client_start none env rt =
      (none, IOTC_RELAY_ERROR_INVALID_PARAM)) ∧
    (∀ j r, iotc_relay_client_send_telemetry none j r =
      (none, IOTC_RELAY_ERROR_INVALID_PARAM, none)) ∧
    (∀ st r, iotc_relay_client_send_telemetry (some st) none r =
      (some st, IOTC_RELAY_ERROR_INVALID_PARAM, none)) ∧
    iotc_relay_client_is_connected none = false ∧
    iotc_relay_client_stop none = none ∧
    iotc_relay_client_destroy none = none := by
  refine ⟨?_, ?_, ?_, ?_, ?_, rfl, rfl, rfl⟩
  · intro cid cb
    cases cid <;> rfl
  · intro p cb
    cases p <;> rfl
  · intro env rt
    rfl
  · intro j r
    cases j <;> rfl
  · intro st r
    rfl

end IotcRelay
